import Mathlib

/-!
Verification of the StarSystems repository + search/filter engine.

Shallow embedding conventions:
* Python floats are modelled as rationals (`ℚ`); the operations verified here
  perform no float-specific arithmetic beyond comparison, sum, division and
  2-decimal rounding, all of which are exact on the inputs considered.
* `src/src/starsystems/models/planet.py` and `star_system.py` give the entity
  model; `services/search_service.py` gives the pure search/filter engine;
  `database/repository.py` (over the SQLite schema of
  `database/connection.py`) gives the persistence layer, modelled as lists of
  table rows where SQLite `INSERT ... ON CONFLICT ... DO UPDATE` updates the
  conflicting row in place (rowid order is preserved) and plain inserts append.
-/

namespace StarSystems

/-- Entity model: `Planet` dataclass from `models/planet.py`. -/
structure Planet where
  name : String
  mass : ℚ
  radius : ℚ
  orbit_distance : ℚ
  deriving DecidableEq, Repr

/-- `Planet.classify` from `models/planet.py` lines 18-26. -/
def Planet.classify (p : Planet) : String :=
  if p.mass < 0.1 then "Dwarf Planet"
  else if p.mass < 2 ∧ p.radius < 1.5 then "Terrestrial"
  else if p.mass < 10 then "Super-Earth"
  else "Gas Giant"

/-- Entity model: `StarSystem` dataclass from `models/star_system.py`. -/
structure StarSystem where
  name : String
  spectral_type : String := "Unknown"
  distance_ly : ℚ := 0
  planets : List Planet := []
  deriving DecidableEq, Repr

/-- `StarSystem.has_planet`: `len(self.planets) > 0`. -/
def StarSystem.has_planet (s : StarSystem) : Bool :=
  decide (0 < s.planets.length)

/-- `StarSystem.planet_count`: `len(self.planets)`. -/
def StarSystem.planet_count (s : StarSystem) : Nat :=
  s.planets.length

/-- Python `str.upper()` (ASCII case mapping, as used on spectral-type codes). -/
def strUpper (s : String) : String :=
  String.mk (s.data.map Char.toUpper)

/-- Python `s[0].upper()` packaged as a one-character string; `""` when the
string is empty (the source only applies it to non-empty strings). -/
def firstUpper (s : String) : String :=
  match s.data with
  | [] => ""
  | c :: _ => String.mk [c.toUpper]

/-- `SearchService._filter_by_distance`: keep `0.0 < s.distance_ly <= max_distance`. -/
def filterByDistance (systems : List StarSystem) (max_distance : ℚ) : List StarSystem :=
  systems.filter fun s => decide (0 < s.distance_ly ∧ s.distance_ly ≤ max_distance)

/-- `SearchService._filter_by_spectral_type`: keep systems with a truthy
spectral type other than `"Unknown"` whose uppercased first character is in
the set of uppercased supplied types. -/
def filterBySpectralType (systems : List StarSystem) (spectral_types : List String) :
    List StarSystem :=
  systems.filter fun s =>
    decide (s.spectral_type ≠ "" ∧ s.spectral_type ≠ "Unknown" ∧
      firstUpper s.spectral_type ∈ spectral_types.map strUpper)

/-- `SearchService._filter_by_has_planets`. -/
def filterByHasPlanets (systems : List StarSystem) (has_planets : Bool) : List StarSystem :=
  if has_planets then systems.filter fun s => s.has_planet
  else systems.filter fun s => !s.has_planet

/-- `SearchService._filter_by_min_planets` (`min_planets` is a Python int). -/
def filterByMinPlanets (systems : List StarSystem) (min_planets : ℤ) : List StarSystem :=
  systems.filter fun s => decide (min_planets ≤ (s.planet_count : ℤ))

/-- The `if max_distance is not None` pass of `filter_systems`. -/
def distancePass (systems : List StarSystem) : Option ℚ → List StarSystem
  | none => systems
  | some m => filterByDistance systems m

/-- The `if spectral_types is not None and spectral_types` pass of
`filter_systems`: an empty list is also skipped (Python truthiness). -/
def spectralPass (systems : List StarSystem) : Option (List String) → List StarSystem
  | none => systems
  | some ts => if ts.isEmpty then systems else filterBySpectralType systems ts

/-- The `if has_planets is not None` pass of `filter_systems`. -/
def hasPlanetsPass (systems : List StarSystem) : Option Bool → List StarSystem
  | none => systems
  | some b => filterByHasPlanets systems b

/-- The `if min_planets is not None` pass of `filter_systems`. -/
def minPlanetsPass (systems : List StarSystem) : Option ℤ → List StarSystem
  | none => systems
  | some m => filterByMinPlanets systems m

/-- `SearchService.filter_systems`: sequential narrowing passes in source
order (distance, spectral type, has-planets, min-planets); a criterion that
is `None` is skipped. -/
def filter_systems (systems : List StarSystem) (max_distance : Option ℚ)
    (spectral_types : Option (List String)) (has_planets : Option Bool)
    (min_planets : Option ℤ) : List StarSystem :=
  minPlanetsPass
    (hasPlanetsPass
      (spectralPass (distancePass systems max_distance) spectral_types)
      has_planets)
    min_planets

/-- Python 3 `round` to the nearest integer: round half to even. -/
def roundHalfEven (q : ℚ) : ℤ :=
  if Int.fract q < 1/2 then ⌊q⌋
  else if 1/2 < Int.fract q then ⌊q⌋ + 1
  else if ⌊q⌋ % 2 = 0 then ⌊q⌋ else ⌊q⌋ + 1

/-- Python `round(x, 2)`. -/
def round2 (q : ℚ) : ℚ :=
  (roundHalfEven (q * 100) : ℚ) / 100

/-- `[s.distance_ly for s in systems if s.distance_ly > 0]` from
`get_statistics`. -/
def validDistances (systems : List StarSystem) : List ℚ :=
  (systems.filter fun s => decide (0 < s.distance_ly)).map fun s => s.distance_ly

/-- `sum(s.planet_count() for s in systems)` from `get_statistics`. -/
def totalPlanetCount (systems : List StarSystem) : Nat :=
  (systems.map fun s => s.planet_count).sum

/-- One `spectral_dist[first_char] = spectral_dist.get(first_char, 0) + 1`
step on the insertion-ordered dict. -/
def bump (l : List (String × Nat)) (k : String) : List (String × Nat) :=
  match l with
  | [] => [(k, 1)]
  | (k', v) :: rest => if k' = k then (k', v + 1) :: rest else (k', v) :: bump rest k

/-- The spectral-type distribution loop of `get_statistics` lines 179-183. -/
def spectralDist (systems : List StarSystem) : List (String × Nat) :=
  systems.foldl
    (fun d s =>
      if s.spectral_type ≠ "" ∧ s.spectral_type ≠ "Unknown" then
        bump d (firstUpper s.spectral_type)
      else d)
    []

/-- Values stored in the statistics dict: Python numbers or the nested
spectral-type distribution dict. -/
inductive StatVal where
  | num : ℚ → StatVal
  | dist : List (String × Nat) → StatVal
  deriving DecidableEq, Repr

/-- `SearchService.get_statistics`: returns the Python dict as an
insertion-ordered association list, so that the set of keys is observable.
Note the early-return branch for an empty input has no
`"avg_planets_per_system"` entry, exactly as in the source. -/
def get_statistics (systems : List StarSystem) : List (String × StatVal) :=
  if systems.isEmpty then
    [("total_systems", .num 0),
     ("systems_with_planets", .num 0),
     ("total_planets", .num 0),
     ("avg_distance", .num 0),
     ("spectral_type_distribution", .dist [])]
  else
    let total_planets := totalPlanetCount systems
    let systems_with_planets := (systems.filter fun s => s.has_planet).length
    let valid_distances := validDistances systems
    let avg_distance : ℚ :=
      if valid_distances.isEmpty then 0
      else valid_distances.sum / valid_distances.length
    [("total_systems", .num systems.length),
     ("systems_with_planets", .num systems_with_planets),
     ("total_planets", .num total_planets),
     ("avg_distance", .num (round2 avg_distance)),
     ("avg_planets_per_system", .num (round2 ((total_planets : ℚ) / systems.length))),
     ("spectral_type_distribution", .dist (spectralDist systems))]

/-- A row of the `star_systems` table (`connection.py`): primary key `name`. -/
structure SystemRow where
  name : String
  spectral_type : String
  distance_ly : ℚ
  deriving DecidableEq, Repr

/-- A row of the `planets` table (`connection.py`): uniqueness constraint on
`(name, system_name)`.  The surrogate `id` column determines row order only,
which the list position models. -/
structure PlanetRow where
  name : String
  mass : ℚ
  radius : ℚ
  orbit_distance : ℚ
  system_name : String
  deriving DecidableEq, Repr

/-- The durable store: both tables in rowid order. -/
structure DBState where
  star_systems : List SystemRow
  planets : List PlanetRow
  deriving DecidableEq, Repr

def emptyDB : DBState := ⟨[], []⟩

/-- `INSERT INTO star_systems ... ON CONFLICT(name) DO UPDATE`: the first
(under the PK constraint: only) row with this name is updated in place,
otherwise the new row is appended. -/
def upsertSystem (rows : List SystemRow) (name spectral : String) (dist : ℚ) :
    List SystemRow :=
  match rows with
  | [] => [⟨name, spectral, dist⟩]
  | r :: rest =>
    if r.name = name then ⟨name, spectral, dist⟩ :: rest
    else r :: upsertSystem rest name spectral dist

/-- The planet row written for planet `p` of the system named `sysName`. -/
def planetRow (p : Planet) (sysName : String) : PlanetRow :=
  ⟨p.name, p.mass, p.radius, p.orbit_distance, sysName⟩

/-- `INSERT INTO planets ... ON CONFLICT(name, system_name) DO UPDATE`. -/
def upsertPlanet (rows : List PlanetRow) (p : Planet) (sysName : String) :
    List PlanetRow :=
  match rows with
  | [] => [planetRow p sysName]
  | r :: rest =>
    if r.name = p.name ∧ r.system_name = sysName then planetRow p sysName :: rest
    else r :: upsertPlanet rest p sysName

/-- `StarSystemRepository.save` (`repository.py` lines 24-50): upsert the
system row, then upsert every planet of `system.planets` in order. -/
def save (s : StarSystem) (st : DBState) : DBState :=
  { star_systems := upsertSystem st.star_systems s.name s.spectral_type s.distance_ly
    planets := s.planets.foldl (fun rows p => upsertPlanet rows p s.name) st.planets }

/-- Python `row or "Unknown"` on a stored spectral type (only `""` is falsy). -/
def orUnknown (s : String) : String :=
  if s = "" then "Unknown" else s

/-- Python `float(x) if x else 0.0` on a stored numeric column (the stored
values are never NULL in this model, so this is the identity on `ℚ`). -/
def orZero (q : ℚ) : ℚ :=
  if q = 0 then 0 else q

/-- Reconstruction of a `Planet` from a `planets` row, as in the planet
loops of `find_all` / `find_by_name`. -/
def planetOfRow (r : PlanetRow) : Planet :=
  ⟨r.name, orZero r.mass, orZero r.radius, orZero r.orbit_distance⟩

/-- `SELECT ... FROM planets WHERE system_name = ?`, in rowid order. -/
def planetsFor (st : DBState) (sysName : String) : List Planet :=
  (st.planets.filter fun r => decide (r.system_name = sysName)).map planetOfRow

/-- Reconstruction of a `StarSystem` from its table row plus its planet rows,
shared by `find_all` and `find_by_name`. -/
def readSystemRow (st : DBState) (r : SystemRow) : StarSystem :=
  ⟨r.name, orUnknown r.spectral_type, orZero r.distance_ly, planetsFor st r.name⟩

/-- `StarSystemRepository.find_by_name` (`repository.py` lines 153-190). -/
def find_by_name (st : DBState) (name : String) : Option StarSystem :=
  (st.star_systems.find? fun r => decide (r.name = name)).map (readSystemRow st)

/-- `StarSystemRepository.find_all` (`repository.py` lines 110-142): the
Python dict keyed by the primary-key `name` column is faithfully a map over
the rows as long as row names are unique, which the PK constraint (and the
`dbWF` invariant) guarantees. -/
def find_all (st : DBState) : List StarSystem :=
  st.star_systems.map (readSystemRow st)

/-- The state after the first `j` SQL statements of one system's save in
`save_batch` (`repository.py` lines 69-88): statement 0 is the system-row
upsert, statement `i + 1` upserts planet `i`.  When a later statement
raises, the first `j` stay written — the `except` handler performs no
rollback and the final `conn.commit()` makes them durable. -/
def savePrefix (s : StarSystem) (j : Nat) (st : DBState) : DBState :=
  match j with
  | 0 => st
  | Nat.succ k =>
    { star_systems := upsertSystem st.star_systems s.name s.spectral_type s.distance_ly
      planets := (s.planets.take k).foldl (fun rows p => upsertPlanet rows p s.name) st.planets }

/-- `StarSystemRepository.save_batch` (`repository.py` lines 61-102): each
system is attempted independently; a per-system `sqlite3.Error` is caught,
counted as failed and does not abort the batch.  Which systems fail, and at
which SQL statement of their save the error is raised, is decided by the
storage engine, abstracted here as the oracle `fail`: `none` means the
system saves fully, `some j` means the `(j + 1)`-th statement raises after
`j` statements took effect — which persist, since the handler does not roll
back.  The periodic `conn.commit()` has no further observable effect in
this crash-free model. -/
def save_batch (fail : StarSystem → Option Nat) (systems : List StarSystem) (st : DBState) :
    (Nat × Nat) × DBState :=
  match systems with
  | [] => ((0, 0), st)
  | s :: rest =>
    match fail s with
    | some j =>
      let res := save_batch fail rest (savePrefix s j st)
      ((res.1.1, res.1.2 + 1), res.2)
    | none =>
      let res := save_batch fail rest (save s st)
      ((res.1.1 + 1, res.1.2), res.2)

/-- One loop iteration of `save_batch` as it affects the store: a full save
on success, the committed statement prefix on failure. -/
def batchStep (fail : StarSystem → Option Nat) (st : DBState) (s : StarSystem) : DBState :=
  match fail s with
  | none => save s st
  | some j => savePrefix s j st

/-- The uniqueness key of a planet row: `(name, system_name)`. -/
def planetKey (r : PlanetRow) : String × String :=
  (r.name, r.system_name)

/-- Well-formedness enforced by the schema's uniqueness constraints:
system names are unique (PK) and planet `(name, system_name)` pairs are
unique. -/
def dbWF (st : DBState) : Prop :=
  (st.star_systems.map fun r => r.name).Nodup ∧
  (st.planets.map planetKey).Nodup

/-- Proof device: the effect of one planet upsert on a single row that
carries the upserted key, leaving other rows alone. -/
def applyOne (p : Planet) (sys : String) (r : PlanetRow) : PlanetRow :=
  if r.name = p.name ∧ r.system_name = sys then planetRow p sys else r

/-- Proof device: replay of a save's planet writes on a single row. -/
def applyWrites (ps : List Planet) (sys : String) (r : PlanetRow) : PlanetRow :=
  ps.foldl (fun r p => applyOne p sys r) r

instance (st : DBState) : Decidable (dbWF st) := by
  unfold dbWF; infer_instance

/-! ### General lemmas about the embedded operations -/

theorem classify_of_mass_lt (p : Planet) (h : p.mass < 0.1) :
    p.classify = "Dwarf Planet" := by
  unfold Planet.classify
  rw [if_pos h]

/-- Half-even rounding lands within half a unit of its argument. -/
theorem abs_roundHalfEven_sub (x : ℚ) : |(roundHalfEven x : ℚ) - x| ≤ 1 / 2 := by
  have h0 := Int.fract_nonneg x
  have h1 := Int.fract_lt_one x
  have hf : Int.fract x = x - ⌊x⌋ := rfl
  rw [abs_le]
  unfold roundHalfEven
  split_ifs with ha hb hc
  · constructor <;> linarith
  · push_cast
    constructor <;> linarith
  · constructor <;> linarith
  · push_cast
    constructor <;> linarith

/-- `round(x, 2)` lands within `0.005` of its argument. -/
theorem abs_round2_sub (q : ℚ) : |round2 q - q| ≤ 1 / 200 := by
  have h := abs_roundHalfEven_sub (q * 100)
  rw [round2]
  have he : (roundHalfEven (q * 100) : ℚ) / 100 - q =
      ((roundHalfEven (q * 100) : ℚ) - q * 100) / 100 := by ring
  rw [he, abs_div, abs_of_pos (show (0 : ℚ) < 100 by norm_num)]
  linarith

/-- `round(x, 2)` is an integer number of hundredths. -/
theorem round2_hundredths (q : ℚ) : ∃ k : ℤ, round2 q = k / 100 :=
  ⟨roundHalfEven (q * 100), rfl⟩

/-! ### Claims about `Planet.classify` -/

/-- Claim C1, as stated, is false at mass exactly `0.1`: the code's dwarf
threshold is strict (`mass < 0.1`), so a planet of mass `0.1` is not a
Dwarf Planet. -/
theorem claim1_cex :
    (0.1 : ℚ) ≤ 0.1 ∧
    Planet.classify ⟨"Boundary", 0.1, 1, 1⟩ = "Terrestrial" ∧
    "Terrestrial" ≠ "Dwarf Planet" :=
  ⟨le_refl _, by norm_num [Planet.classify], by decide⟩

/-- Claim C1 (amended): for every planet with mass strictly below `0.1`
(including zero and negative mass), `classify` returns Dwarf Planet. -/
theorem claim1_dwarf_strict (p : Planet) (h : p.mass < 0.1) :
    p.classify = "Dwarf Planet" :=
  classify_of_mass_lt p h

/-- Witness for C1 at a concrete negative-mass planet. -/
theorem claim1_witness :
    (-2 : ℚ) < 0.1 ∧ Planet.classify ⟨"w", -2, 5, 1⟩ = "Dwarf Planet" :=
  ⟨by norm_num, claim1_dwarf_strict ⟨"w", -2, 5, 1⟩ (by norm_num)⟩

/-- Claim C2, as stated, is false: a planet with mass exactly `0.1` and
radius `1.5` is classified Super-Earth, not Terrestrial. -/
theorem claim2_cex :
    Planet.classify ⟨"Boundary2", 0.1, 1.5, 1⟩ = "Super-Earth" ∧
    "Super-Earth" ≠ "Terrestrial" :=
  ⟨by norm_num [Planet.classify], by decide⟩

/-- Claim C2 (amended): `classify` evaluates its rules in fixed priority
order — Dwarf Planet first (strict `mass < 0.1`), then Terrestrial when
`mass < 2` and `radius < 1.5`, then Super-Earth when `mass < 10`, then
Gas Giant — and a planet with mass exactly `0.1` *and radius `< 1.5`* is
classified Terrestrial, not Dwarf Planet. -/
theorem claim2_priority_order (p : Planet) :
    (p.mass < 0.1 → p.classify = "Dwarf Planet") ∧
    (¬p.mass < 0.1 → p.mass < 2 → p.radius < 1.5 → p.classify = "Terrestrial") ∧
    (¬p.mass < 0.1 → ¬(p.mass < 2 ∧ p.radius < 1.5) → p.mass < 10 →
      p.classify = "Super-Earth") ∧
    (¬p.mass < 0.1 → ¬(p.mass < 2 ∧ p.radius < 1.5) → ¬p.mass < 10 →
      p.classify = "Gas Giant") ∧
    (p.mass = 0.1 → p.radius < 1.5 →
      p.classify = "Terrestrial" ∧ p.classify ≠ "Dwarf Planet") := by
  refine ⟨fun h1 => ?_, fun h1 h2 h3 => ?_, fun h1 h2 h3 => ?_, fun h1 h2 h3 => ?_,
    fun he hr => ?_⟩
  · unfold Planet.classify; rw [if_pos h1]
  · unfold Planet.classify; rw [if_neg h1, if_pos ⟨h2, h3⟩]
  · unfold Planet.classify; rw [if_neg h1, if_neg h2, if_pos h3]
  · unfold Planet.classify; rw [if_neg h1, if_neg h2, if_neg h3]
  · have h1 : ¬p.mass < 0.1 := not_lt.mpr (le_of_eq he.symm)
    have h2 : p.mass < 2 := by rw [he]; norm_num
    have ht : p.classify = "Terrestrial" := by
      unfold Planet.classify; rw [if_neg h1, if_pos ⟨h2, hr⟩]
    exact ⟨ht, by rw [ht]; decide⟩

/-- Witness for C2: one concrete planet per priority branch, plus the
`mass = 0.1` boundary case. -/
theorem claim2_witness :
    Planet.classify ⟨"w1", 0.05, 2, 0⟩ = "Dwarf Planet" ∧
    Planet.classify ⟨"w2", 1, 1, 0⟩ = "Terrestrial" ∧
    Planet.classify ⟨"w3", 5, 1, 0⟩ = "Super-Earth" ∧
    Planet.classify ⟨"w4", 20, 1, 0⟩ = "Gas Giant" ∧
    Planet.classify ⟨"w5", 0.1, 1, 0⟩ = "Terrestrial" :=
  ⟨(claim2_priority_order _).1 (by norm_num),
   (claim2_priority_order _).2.1 (by norm_num) (by norm_num) (by norm_num),
   (claim2_priority_order _).2.2.1 (by norm_num) (by norm_num) (by norm_num),
   (claim2_priority_order _).2.2.2.1 (by norm_num) (by norm_num) (by norm_num),
   ((claim2_priority_order _).2.2.2.2 (by norm_num) (by norm_num)).1⟩

/-! ### Claims about the search/filter engine -/

/-- Claim C6: `filterSystems` with only the distance criterion keeps exactly
the systems with `0 < distance_ly ≤ maxDistance`; a system with
`distance_ly = 0` is excluded no matter how large `maxDistance` is. -/
theorem claim6_distance_filter (systems : List StarSystem) (maxD : ℚ) (s : StarSystem) :
    (s ∈ filter_systems systems (some maxD) none none none ↔
      s ∈ systems ∧ 0 < s.distance_ly ∧ s.distance_ly ≤ maxD) ∧
    (s.distance_ly = 0 → s ∉ filter_systems systems (some maxD) none none none) := by
  have hmem : s ∈ filter_systems systems (some maxD) none none none ↔
      s ∈ systems ∧ 0 < s.distance_ly ∧ s.distance_ly ≤ maxD := by
    show s ∈ filterByDistance systems maxD ↔ _
    simp [filterByDistance, List.mem_filter]
  refine ⟨hmem, fun h0 hin => ?_⟩
  rcases hmem.mp hin with ⟨-, h1, -⟩
  rw [h0] at h1
  exact lt_irrefl 0 h1

/-- Witness for C6: with `maxDistance = 999999`, the system at distance 10
is kept and the system at distance 0 is excluded. -/
theorem claim6_witness :
    (⟨"A", "G2V", 10, []⟩ : StarSystem) ∈
      filter_systems [⟨"A", "G2V", 10, []⟩, ⟨"C", "M5V", 0, []⟩]
        (some 999999) none none none ∧
    (⟨"C", "M5V", 0, []⟩ : StarSystem) ∉
      filter_systems [⟨"A", "G2V", 10, []⟩, ⟨"C", "M5V", 0, []⟩]
        (some 999999) none none none :=
  ⟨(claim6_distance_filter _ 999999 _).1.mpr
      ⟨by simp, by norm_num, by norm_num⟩,
   (claim6_distance_filter _ 999999 _).2 rfl⟩

/-- Claim C7: `filterSystems` with a non-empty spectral-type list keeps
exactly the systems whose spectral type is non-empty, not `"Unknown"`, and
whose uppercased first character equals the uppercasing of some supplied
element; the empty list acts as no filter. -/
theorem claim7_spectral_filter (systems : List StarSystem) (ts : List String)
    (s : StarSystem) :
    (ts ≠ [] →
      (s ∈ filter_systems systems none (some ts) none none ↔
        s ∈ systems ∧ s.spectral_type ≠ "" ∧ s.spectral_type ≠ "Unknown" ∧
          ∃ t ∈ ts, strUpper t = firstUpper s.spectral_type)) ∧
    filter_systems systems none (some []) none none = systems := by
  refine ⟨fun hts => ?_, rfl⟩
  have hne : ts.isEmpty = false := by
    cases ts with
    | nil => exact absurd rfl hts
    | cons a l => rfl
  show s ∈ spectralPass systems (some ts) ↔ _
  rw [spectralPass, hne]
  simp only [Bool.false_eq_true, if_false, filterBySpectralType, List.mem_filter,
    decide_eq_true_eq, List.mem_map]

/-- Witness for C7: `["g"]` keeps a `"G2V"` system case-insensitively, and
the empty list returns the input unchanged. -/
theorem claim7_witness :
    (⟨"A", "G2V", 10, []⟩ : StarSystem) ∈
      filter_systems [⟨"A", "G2V", 10, []⟩] none (some ["g"]) none none ∧
    filter_systems [⟨"A", "G2V", 10, []⟩] none (some []) none none =
      [⟨"A", "G2V", 10, []⟩] :=
  ⟨((claim7_spectral_filter [⟨"A", "G2V", 10, []⟩] ["g"] _).1 (by simp)).mpr
      ⟨by simp, by decide, by decide, "g", by simp, rfl⟩,
   (claim7_spectral_filter [⟨"A", "G2V", 10, []⟩] ["g"] ⟨"A", "G2V", 10, []⟩).2⟩

/-- A string whose uppercasing is `"UNKNOWN"` is non-empty and has first
character uppercasing to `'U'`. -/
theorem firstUpper_of_strUpper_UNKNOWN (s : String) (h : strUpper s = "UNKNOWN") :
    firstUpper s = "U" ∧ s ≠ "" := by
  have hdata : s.data.map Char.toUpper = "UNKNOWN".data := congrArg String.data h
  have hne : s ≠ "" := by
    intro he
    rw [he] at h
    exact absurd h (by decide)
  cases hd : s.data with
  | nil =>
    rw [hd] at hdata
    exact absurd hdata (by decide)
  | cons c rest =>
    rw [hd] at hdata
    rw [show "UNKNOWN".data = 'U' :: ['N', 'K', 'N', 'O', 'W', 'N'] from rfl] at hdata
    simp only [List.map_cons, List.cons.injEq] at hdata
    have hc : c.toUpper = 'U' := hdata.1
    refine ⟨?_, hne⟩
    unfold firstUpper
    rw [hd]
    show String.mk [c.toUpper] = "U"
    rw [hc]

/-- Claim C10: the `"Unknown"` exclusion is case-sensitive, so a system whose
spectral type differs from `"Unknown"` only in letter case passes the
spectral-type filter when `"U"` is among the uppercased supplied types, and
`getStatistics` counts it in the distribution under bucket `"U"`. -/
theorem claim10_unknown_case_sensitive (s : StarSystem) (ts : List String)
    (systems : List StarSystem) (h1 : s.spectral_type ≠ "Unknown")
    (h2 : strUpper s.spectral_type = strUpper "Unknown")
    (h3 : "U" ∈ ts.map strUpper) :
    (s ∈ systems → s ∈ filterBySpectralType systems ts) ∧
    (get_statistics [s]).lookup "spectral_type_distribution" =
      some (.dist [("U", 1)]) := by
  obtain ⟨hfu, hne⟩ := firstUpper_of_strUpper_UNKNOWN s.spectral_type h2
  constructor
  · intro hs
    rw [filterBySpectralType, List.mem_filter]
    refine ⟨hs, ?_⟩
    simp [hne, h1, hfu, h3]
  · rw [get_statistics]
    rw [show ([s] : List StarSystem).isEmpty = false from rfl]
    simp [spectralDist, bump, hne, h1, hfu, List.lookup]

/-- Witness for C10 at spectral type `"unknown"`. -/
theorem claim10_witness :
    ((⟨"X", "unknown", 0, []⟩ : StarSystem) ∈
      filterBySpectralType [⟨"X", "unknown", 0, []⟩] ["u"]) ∧
    (get_statistics [(⟨"X", "unknown", 0, []⟩ : StarSystem)]).lookup
        "spectral_type_distribution" = some (.dist [("U", 1)]) :=
  ⟨(claim10_unknown_case_sensitive ⟨"X", "unknown", 0, []⟩ ["u"]
      [⟨"X", "unknown", 0, []⟩] (by decide) rfl (by simp [strUpper])).1 (by simp),
   (claim10_unknown_case_sensitive ⟨"X", "unknown", 0, []⟩ ["u"]
      [⟨"X", "unknown", 0, []⟩] (by decide) rfl (by simp [strUpper])).2⟩

/-! ### Claims about `get_statistics` -/

/-- Claim C8, as stated, is false: the empty-input result is missing the
`"avg_planets_per_system"` field that non-empty input returns. -/
theorem claim8_cex :
    "avg_planets_per_system" ∉ (get_statistics []).map Prod.fst ∧
    "avg_planets_per_system" ∈
      (get_statistics [⟨"A", "G2V", 10, []⟩]).map Prod.fst := by
  constructor
  · decide
  · rw [get_statistics]
    rw [show ([(⟨"A", "G2V", 10, []⟩ : StarSystem)]).isEmpty = false from rfl]
    simp

/-- Claim C8 (amended): `getStatistics([])` returns zero `total_systems`,
`systems_with_planets`, `total_planets`, zero `avg_distance` and an empty
spectral-type distribution — but no `avg_planets_per_system` field, so the
empty-input field set is one key short of the non-empty one. -/
theorem claim8_empty_stats :
    get_statistics [] =
      [("total_systems", .num 0),
       ("systems_with_planets", .num 0),
       ("total_planets", .num 0),
       ("avg_distance", .num 0),
       ("spectral_type_distribution", .dist [])] := rfl

/-- Claim C9: on non-empty input the two averages are the 2-decimal
roundings of the exact quotients: each equals `round2` of its quotient, is
an integer number of hundredths, and sits within `1/200` of the exact
quotient. -/
theorem claim9_rounded_averages (systems : List StarSystem) (h : systems ≠ []) :
    ∃ a b : ℚ,
      (get_statistics systems).lookup "avg_distance" = some (.num a) ∧
      (get_statistics systems).lookup "avg_planets_per_system" = some (.num b) ∧
      (validDistances systems ≠ [] →
        a = round2 ((validDistances systems).sum /
              ((validDistances systems).length : ℚ)) ∧
        (∃ k : ℤ, a = k / 100) ∧
        |a - (validDistances systems).sum / ((validDistances systems).length : ℚ)| ≤
          1 / 200) ∧
      b = round2 ((totalPlanetCount systems : ℚ) / (systems.length : ℚ)) ∧
      (∃ k : ℤ, b = k / 100) ∧
      |b - (totalPlanetCount systems : ℚ) / (systems.length : ℚ)| ≤ 1 / 200 := by
  have hne : systems.isEmpty = false := by
    cases systems with
    | nil => exact absurd rfl h
    | cons a l => rfl
  refine ⟨round2 (if (validDistances systems).isEmpty then 0
            else (validDistances systems).sum / ((validDistances systems).length : ℚ)),
          round2 ((totalPlanetCount systems : ℚ) / (systems.length : ℚ)),
          ?_, ?_, ?_, rfl, round2_hundredths _, abs_round2_sub _⟩
  · rw [get_statistics, hne]
    simp [List.lookup]
  · rw [get_statistics, hne]
    simp [List.lookup]
  · intro hvd
    have hvdne : (validDistances systems).isEmpty = false := by
      cases hv : validDistances systems with
      | nil => exact absurd hv hvd
      | cons a l => rfl
    rw [hvdne]
    exact ⟨by norm_num, round2_hundredths _, abs_round2_sub _⟩

/-- Witness for C9: three systems at distances 1, 1, 2; the average `4/3`
is reported as its rounding `1.33`. -/
theorem claim9_witness :
    ∃ a b : ℚ,
      (get_statistics [⟨"A", "G2V", 1, []⟩, ⟨"B", "K5V", 1, []⟩,
          ⟨"C", "M5V", 2, []⟩]).lookup "avg_distance" = some (.num a) ∧
      (get_statistics [⟨"A", "G2V", 1, []⟩, ⟨"B", "K5V", 1, []⟩,
          ⟨"C", "M5V", 2, []⟩]).lookup "avg_planets_per_system" = some (.num b) ∧
      (validDistances [⟨"A", "G2V", 1, []⟩, ⟨"B", "K5V", 1, []⟩,
          ⟨"C", "M5V", 2, []⟩] ≠ [] →
        a = round2 ((validDistances [⟨"A", "G2V", 1, []⟩, ⟨"B", "K5V", 1, []⟩,
              ⟨"C", "M5V", 2, []⟩]).sum /
              ((validDistances [⟨"A", "G2V", 1, []⟩, ⟨"B", "K5V", 1, []⟩,
                ⟨"C", "M5V", 2, []⟩]).length : ℚ)) ∧
        (∃ k : ℤ, a = k / 100) ∧
        |a - (validDistances [⟨"A", "G2V", 1, []⟩, ⟨"B", "K5V", 1, []⟩,
              ⟨"C", "M5V", 2, []⟩]).sum /
              ((validDistances [⟨"A", "G2V", 1, []⟩, ⟨"B", "K5V", 1, []⟩,
                ⟨"C", "M5V", 2, []⟩]).length : ℚ)| ≤ 1 / 200) ∧
      b = round2 ((totalPlanetCount [⟨"A", "G2V", 1, []⟩, ⟨"B", "K5V", 1, []⟩,
            ⟨"C", "M5V", 2, []⟩] : ℚ) /
            (([⟨"A", "G2V", 1, []⟩, ⟨"B", "K5V", 1, []⟩,
              ⟨"C", "M5V", 2, []⟩] : List StarSystem).length : ℚ)) ∧
      (∃ k : ℤ, b = k / 100) ∧
      |b - (totalPlanetCount [⟨"A", "G2V", 1, []⟩, ⟨"B", "K5V", 1, []⟩,
            ⟨"C", "M5V", 2, []⟩] : ℚ) /
            (([⟨"A", "G2V", 1, []⟩, ⟨"B", "K5V", 1, []⟩,
              ⟨"C", "M5V", 2, []⟩] : List StarSystem).length : ℚ)| ≤ 1 / 200 :=
  claim9_rounded_averages _ (by simp)

/-! ### Lemmas about the persistence layer -/

theorem orZero_eq (q : ℚ) : orZero q = q := by
  unfold orZero
  split_ifs with h
  · exact h.symm
  · rfl

theorem planetOfRow_planetRow (p : Planet) (sys : String) :
    planetOfRow (planetRow p sys) = p := by
  simp [planetOfRow, planetRow, orZero_eq]

/-- After a system upsert, the first row matching the upserted name is the
freshly written one. -/
theorem find?_upsertSystem_self (rows : List SystemRow) (n sp : String) (d : ℚ) :
    (upsertSystem rows n sp d).find? (fun r => decide (r.name = n)) =
      some ⟨n, sp, d⟩ := by
  induction rows with
  | nil => simp [upsertSystem, List.find?]
  | cons r rest ih =>
    rw [upsertSystem]
    split_ifs with h
    · simp [List.find?]
    · rw [List.find?, decide_eq_false h]
      exact ih

/-- A system upsert under a different name does not change what a
name-lookup finds. -/
theorem find?_upsertSystem_ne (rows : List SystemRow) (n sp : String) (d : ℚ)
    (m : String) (hm : m ≠ n) :
    (upsertSystem rows n sp d).find? (fun r => decide (r.name = m)) =
      rows.find? (fun r => decide (r.name = m)) := by
  induction rows with
  | nil => simp [upsertSystem, List.find?, Ne.symm hm]
  | cons r rest ih =>
    rw [upsertSystem]
    split_ifs with h
    · have hr : ¬r.name = m := fun hc => hm (hc ▸ h ▸ rfl)
      simp [List.find?, Ne.symm hm, hr]
    · rw [List.find?, List.find?]
      cases hrm : decide (r.name = m) with
      | true => rfl
      | false => exact ih

/-- Rows whose name differs from the upserted one survive a system upsert. -/
theorem mem_upsertSystem_of_ne (rows : List SystemRow) (n sp : String) (d : ℚ)
    (r : SystemRow) (hr : r ∈ rows) (hne : r.name ≠ n) :
    r ∈ upsertSystem rows n sp d := by
  induction rows with
  | nil => cases hr
  | cons a rest ih =>
    rw [upsertSystem]
    rcases List.mem_cons.mp hr with h | h
    · split_ifs with ha
      · exact absurd (h ▸ ha) hne
      · exact h ▸ List.mem_cons_self _ _
    · split_ifs with ha
      · exact List.mem_cons_of_mem _ h
      · exact List.mem_cons_of_mem _ (ih h)

/-- The freshly written planet row is in the table after its upsert. -/
theorem mem_upsertPlanet_self (rows : List PlanetRow) (p : Planet) (sys : String) :
    planetRow p sys ∈ upsertPlanet rows p sys := by
  induction rows with
  | nil => exact List.mem_cons_self _ _
  | cons r rest ih =>
    rw [upsertPlanet]
    split_ifs with h
    · exact List.mem_cons_self _ _
    · exact List.mem_cons_of_mem _ ih

/-- Planet rows keyed differently from the upserted one survive the upsert. -/
theorem mem_upsertPlanet_of_ne (rows : List PlanetRow) (p : Planet) (sys : String)
    (r : PlanetRow) (hr : r ∈ rows)
    (hne : ¬(r.name = p.name ∧ r.system_name = sys)) :
    r ∈ upsertPlanet rows p sys := by
  induction rows with
  | nil => cases hr
  | cons a rest ih =>
    rw [upsertPlanet]
    rcases List.mem_cons.mp hr with h | h
    · split_ifs with ha
      · exact absurd (h ▸ ha) hne
      · exact h ▸ List.mem_cons_self _ _
    · split_ifs with ha
      · exact List.mem_cons_of_mem _ h
      · exact List.mem_cons_of_mem _ (ih h)

/-- A planet row keyed differently from every planet written by a save
survives the whole planet loop. -/
theorem mem_foldl_upsertPlanet_of_ne (ps : List Planet) (rows : List PlanetRow)
    (sys : String) (r : PlanetRow) (hr : r ∈ rows)
    (hne : ∀ p ∈ ps, ¬(r.name = p.name ∧ r.system_name = sys)) :
    r ∈ ps.foldl (fun rs p => upsertPlanet rs p sys) rows := by
  induction ps generalizing rows with
  | nil => exact hr
  | cons p rest ih =>
    rw [List.foldl_cons]
    exact ih _ (mem_upsertPlanet_of_ne rows p sys r hr (hne p (List.mem_cons_self _ _)))
      fun q hq => hne q (List.mem_cons_of_mem _ hq)

/-- Every planet of a save with pairwise-distinct planet names ends up in
the table. -/
theorem mem_foldl_upsertPlanet_self (ps : List Planet) (sys : String) (p : Planet) :
    ∀ rows : List PlanetRow, (ps.map Planet.name).Nodup → p ∈ ps →
      planetRow p sys ∈ ps.foldl (fun rs q => upsertPlanet rs q sys) rows := by
  induction ps with
  | nil =>
    intro rows _ hp
    cases hp
  | cons q rest ih =>
    intro rows hnd hp
    rw [List.foldl_cons]
    rcases List.mem_cons.mp hp with h | h
    · refine mem_foldl_upsertPlanet_of_ne rest _ sys _ ?_ fun q' hq' hc => ?_
      · rw [h]
        exact mem_upsertPlanet_self rows q sys
      · have hq : q.name ∉ rest.map Planet.name := (List.nodup_cons.mp hnd).1
        rw [h] at hc
        have hmem : q'.name ∈ rest.map Planet.name := List.mem_map_of_mem Planet.name hq'
        rw [← hc.1] at hmem
        exact hq hmem
    · exact ih (upsertPlanet rows q sys) (List.nodup_cons.mp hnd).2 h

/-- Every planet of a save with pairwise-distinct planet names is readable
back from the saved state. -/
theorem mem_planetsFor_save (st : DBState) (s : StarSystem)
    (hnd : (s.planets.map Planet.name).Nodup) (p : Planet) (hp : p ∈ s.planets) :
    p ∈ planetsFor (save s st) s.name := by
  have hrow : planetRow p s.name ∈ (save s st).planets :=
    mem_foldl_upsertPlanet_self s.planets s.name p st.planets hnd hp
  have hmem : planetRow p s.name ∈
      (save s st).planets.filter fun r => decide (r.system_name = s.name) :=
    List.mem_filter.mpr ⟨hrow, by simp [planetRow]⟩
  have := List.mem_map_of_mem planetOfRow hmem
  rwa [planetOfRow_planetRow] at this

/-! ### Claims about the repository -/

/-- Claim C3, as stated, is false: an empty spectral type reads back as
`"Unknown"`, and a duplicate planet name within `s.planets` collapses to
the last written values, so the read-back planet multiset can miss a
saved planet. -/
theorem claim3_cex :
    find_by_name
        (save ⟨"S", "", 1, [⟨"p", 1, 1, 1⟩, ⟨"p", 2, 2, 2⟩]⟩ emptyDB) "S" =
      some ⟨"S", "Unknown", 1, [⟨"p", 2, 2, 2⟩]⟩ ∧
    ("Unknown" : String) ≠ "" ∧
    (⟨"p", 1, 1, 1⟩ : Planet) ∉ ([⟨"p", 2, 2, 2⟩] : List Planet) := by
  refine ⟨by decide, by decide, by decide⟩

/-- Claim C3 (amended): for every system whose spectral type is non-empty
and whose planet names are pairwise distinct, `save` followed by
`findByName(s.name)` returns a system with the same `spectral_type` and
`distance_ly` whose planet multiset contains at least the planets of `s`;
and `save` never deletes planet rows stored earlier whose key is absent
from `s.planets`. -/
theorem claim3_save_find_roundtrip (st : DBState) (s : StarSystem)
    (h1 : s.spectral_type ≠ "") (h2 : (s.planets.map Planet.name).Nodup) :
    (∃ t, find_by_name (save s st) s.name = some t ∧
      t.spectral_type = s.spectral_type ∧ t.distance_ly = s.distance_ly ∧
      (s.planets : Multiset Planet) ≤ (t.planets : Multiset Planet)) ∧
    ∀ r ∈ st.planets,
      (∀ p ∈ s.planets, ¬(r.name = p.name ∧ r.system_name = s.name)) →
      r ∈ (save s st).planets := by
  constructor
  · refine ⟨readSystemRow (save s st) ⟨s.name, s.spectral_type, s.distance_ly⟩,
      ?_, ?_, ?_, ?_⟩
    · rw [find_by_name]
      rw [show (save s st).star_systems =
        upsertSystem st.star_systems s.name s.spectral_type s.distance_ly from rfl]
      rw [find?_upsertSystem_self]
      rfl
    · show orUnknown s.spectral_type = s.spectral_type
      rw [orUnknown, if_neg h1]
    · exact orZero_eq s.distance_ly
    · rw [Multiset.coe_le]
      refine List.subperm_of_subset (List.Nodup.of_map _ h2) fun p hp => ?_
      exact mem_planetsFor_save st s h2 p hp
  · exact fun r hr hne => mem_foldl_upsertPlanet_of_ne s.planets st.planets s.name r hr hne

/-- Witness for C3: save over a state holding an unrelated system and
planet row; the saved system reads back and the old planet row survives. -/
theorem claim3_witness :
    (∃ t, find_by_name
        (save ⟨"A", "G2V", 10, [⟨"p", 1, 1, 1⟩]⟩
          ⟨[⟨"Old", "K5V", 1⟩], [⟨"q", 1, 1, 1, "Old"⟩]⟩) "A" = some t ∧
      t.spectral_type = "G2V" ∧ t.distance_ly = 10 ∧
      (([⟨"p", 1, 1, 1⟩] : List Planet) : Multiset Planet) ≤
        (t.planets : Multiset Planet)) ∧
    (⟨"q", 1, 1, 1, "Old"⟩ : PlanetRow) ∈
      (save ⟨"A", "G2V", 10, [⟨"p", 1, 1, 1⟩]⟩
        ⟨[⟨"Old", "K5V", 1⟩], [⟨"q", 1, 1, 1, "Old"⟩]⟩).planets :=
  ⟨(claim3_save_find_roundtrip ⟨[⟨"Old", "K5V", 1⟩], [⟨"q", 1, 1, 1, "Old"⟩]⟩
      ⟨"A", "G2V", 10, [⟨"p", 1, 1, 1⟩]⟩ (by decide) (by decide)).1,
   (claim3_save_find_roundtrip ⟨[⟨"Old", "K5V", 1⟩], [⟨"q", 1, 1, 1, "Old"⟩]⟩
      ⟨"A", "G2V", 10, [⟨"p", 1, 1, 1⟩]⟩ (by decide) (by decide)).2
     ⟨"q", 1, 1, 1, "Old"⟩ (by simp) (by decide)⟩

/-! ### Idempotence machinery for `save` -/

theorem map_eq_self_of {α : Type} (l : List α) (f : α → α) (h : ∀ a ∈ l, f a = a) :
    l.map f = l := by
  induction l with
  | nil => rfl
  | cons a rest ih =>
    rw [List.map_cons, h a (List.mem_cons_self _ _), ih fun b hb => h b (List.mem_cons_of_mem _ hb)]

/-- Re-upserting a system name overwrites the previous upsert. -/
theorem upsertSystem_absorb (rows : List SystemRow) (n sp sp' : String) (d d' : ℚ) :
    upsertSystem (upsertSystem rows n sp d) n sp' d' = upsertSystem rows n sp' d' := by
  induction rows with
  | nil => simp [upsertSystem]
  | cons r rest ih =>
    by_cases h : r.name = n
    · rw [upsertSystem, if_pos h, upsertSystem, if_pos rfl, upsertSystem, if_pos h]
    · rw [upsertSystem, if_neg h, upsertSystem, if_neg h, upsertSystem, if_neg h, ih]

theorem planetKey_applyOne (p : Planet) (sys : String) (r : PlanetRow) :
    planetKey (applyOne p sys r) = planetKey r := by
  unfold applyOne
  split_ifs with h
  · simp [planetKey, planetRow, h.1, h.2]
  · rfl

theorem planetKey_applyWrites (ps : List Planet) (sys : String) (r : PlanetRow) :
    planetKey (applyWrites ps sys r) = planetKey r := by
  induction ps generalizing r with
  | nil => rfl
  | cons p rest ih =>
    show planetKey (applyWrites rest sys (applyOne p sys r)) = planetKey r
    rw [ih, planetKey_applyOne]

theorem map_applyOne_of_absent (rows : List PlanetRow) (p : Planet) (sys : String)
    (h : ∀ r ∈ rows, ¬(r.name = p.name ∧ r.system_name = sys)) :
    rows.map (applyOne p sys) = rows :=
  map_eq_self_of rows _ fun r hr => by rw [applyOne, if_neg (h r hr)]

/-- Appearance of a key in the planet table after an upsert. -/
theorem mem_keys_upsertPlanet_self (rows : List PlanetRow) (p : Planet) (sys : String) :
    (p.name, sys) ∈ (upsertPlanet rows p sys).map planetKey :=
  List.mem_map.mpr ⟨planetRow p sys, mem_upsertPlanet_self rows p sys, rfl⟩

theorem mem_keys_upsertPlanet_mono (rows : List PlanetRow) (p : Planet) (sys : String)
    (k : String × String) (hk : k ∈ rows.map planetKey) :
    k ∈ (upsertPlanet rows p sys).map planetKey := by
  induction rows with
  | nil => cases hk
  | cons a rest ih =>
    rw [upsertPlanet]
    rcases List.mem_cons.mp hk with h | h
    · split_ifs with ha
      · rw [List.map_cons, h]
        have hkey : planetKey a = planetKey (planetRow p sys) := by
          simp [planetKey, planetRow, ha.1, ha.2]
        rw [hkey]
        exact List.mem_cons_self _ _
      · rw [List.map_cons, h]
        exact List.mem_cons_self _ _
    · split_ifs with ha
      · exact List.mem_cons_of_mem _ h
      · exact List.mem_cons_of_mem _ (ih h)

/-- An upsert whose key is already present keeps the key sequence. -/
theorem keys_upsertPlanet_of_mem (rows : List PlanetRow) (p : Planet) (sys : String)
    (hmem : (p.name, sys) ∈ rows.map planetKey) :
    (upsertPlanet rows p sys).map planetKey = rows.map planetKey := by
  induction rows with
  | nil => cases hmem
  | cons a rest ih =>
    rw [upsertPlanet]
    split_ifs with ha
    · rw [List.map_cons, List.map_cons]
      simp [planetKey, planetRow, ha.1, ha.2]
    · rw [List.map_cons, List.map_cons]
      rcases List.mem_cons.mp hmem with h | h
      · exact absurd ⟨congrArg Prod.fst h.symm, congrArg Prod.snd h.symm⟩ ha
      · rw [ih h]

/-- An upsert whose key is new appends that key. -/
theorem keys_upsertPlanet_of_not_mem (rows : List PlanetRow) (p : Planet) (sys : String)
    (hmem : (p.name, sys) ∉ rows.map planetKey) :
    (upsertPlanet rows p sys).map planetKey = rows.map planetKey ++ [(p.name, sys)] := by
  induction rows with
  | nil => rfl
  | cons a rest ih =>
    rw [upsertPlanet]
    split_ifs with ha
    · refine absurd ?_ hmem
      rw [List.map_cons]
      have hkey : (p.name, sys) = planetKey a := by simp [planetKey, ha.1, ha.2]
      rw [hkey]
      exact List.mem_cons_self _ _
    · rw [List.map_cons, List.map_cons, List.cons_append,
        ih fun hc => hmem (List.mem_cons_of_mem _ hc)]

/-- Planet upserts preserve key uniqueness. -/
theorem nodup_keys_upsertPlanet (rows : List PlanetRow) (p : Planet) (sys : String)
    (hnd : (rows.map planetKey).Nodup) :
    ((upsertPlanet rows p sys).map planetKey).Nodup := by
  by_cases hmem : (p.name, sys) ∈ rows.map planetKey
  · rw [keys_upsertPlanet_of_mem rows p sys hmem]
    exact hnd
  · rw [keys_upsertPlanet_of_not_mem rows p sys hmem]
    simp only [List.nodup_append, List.nodup_cons, List.not_mem_nil, not_false_iff,
      List.nodup_nil, and_true, true_and]
    exact ⟨hnd, fun k hk hc => hmem ((List.mem_singleton.mp hc) ▸ hk)⟩

/-- A whole planet loop preserves key uniqueness. -/
theorem nodup_keys_foldl_upsertPlanet (ps : List Planet) (sys : String) :
    ∀ rows : List PlanetRow, (rows.map planetKey).Nodup →
      ((ps.foldl (fun rs p => upsertPlanet rs p sys) rows).map planetKey).Nodup := by
  induction ps with
  | nil => exact fun rows hnd => hnd
  | cons p rest ih =>
    intro rows hnd
    rw [List.foldl_cons]
    exact ih _ (nodup_keys_upsertPlanet rows p sys hnd)

/-- With its key already present and keys unique, a planet upsert is a
pointwise update. -/
theorem upsertPlanet_eq_map (rows : List PlanetRow) (p : Planet) (sys : String)
    (hmem : (p.name, sys) ∈ rows.map planetKey)
    (hnd : (rows.map planetKey).Nodup) :
    upsertPlanet rows p sys = rows.map (applyOne p sys) := by
  induction rows with
  | nil => cases hmem
  | cons a rest ih =>
    rw [upsertPlanet, List.map_cons]
    split_ifs with ha
    · rw [show applyOne p sys a = planetRow p sys from by rw [applyOne, if_pos ha]]
      rw [map_applyOne_of_absent rest p sys fun r hr hc => ?_]
      have hkeya : planetKey a ∉ rest.map planetKey := (List.nodup_cons.mp hnd).1
      have : planetKey r = planetKey a := by
        simp [planetKey, hc.1, hc.2, ha.1, ha.2]
      exact hkeya (this ▸ List.mem_map_of_mem planetKey hr)
    · rw [show applyOne p sys a = a from by rw [applyOne, if_neg ha]]
      rcases List.mem_cons.mp hmem with h | h
      · exact absurd ⟨congrArg Prod.fst h.symm, congrArg Prod.snd h.symm⟩ ha
      · rw [ih h (List.nodup_cons.mp hnd).2]

/-- The keys of a pointwise update are unchanged. -/
theorem keys_map_applyOne (rows : List PlanetRow) (p : Planet) (sys : String) :
    (rows.map (applyOne p sys)).map planetKey = rows.map planetKey := by
  rw [List.map_map]
  exact List.map_congr_left fun r _ => planetKey_applyOne p sys r

/-- A planet loop over rows already carrying all written keys is a
pointwise replay of the writes. -/
theorem foldl_upsertPlanet_eq_map (ps : List Planet) (sys : String) :
    ∀ rows : List PlanetRow, (rows.map planetKey).Nodup →
      (∀ p ∈ ps, (p.name, sys) ∈ rows.map planetKey) →
      ps.foldl (fun rs p => upsertPlanet rs p sys) rows = rows.map (applyWrites ps sys) := by
  induction ps with
  | nil =>
    intro rows _ _
    exact (map_eq_self_of rows _ fun r _ => rfl).symm
  | cons p rest ih =>
    intro rows hnd hmem
    rw [List.foldl_cons, upsertPlanet_eq_map rows p sys (hmem p (List.mem_cons_self _ _)) hnd]
    have hnd' : ((rows.map (applyOne p sys)).map planetKey).Nodup := by
      rw [keys_map_applyOne]; exact hnd
    have hmem' : ∀ q ∈ rest, (q.name, sys) ∈ (rows.map (applyOne p sys)).map planetKey := by
      intro q hq
      rw [keys_map_applyOne]
      exact hmem q (List.mem_cons_of_mem _ hq)
    rw [ih _ hnd' hmem', List.map_map]
    rfl

/-- Under unique keys, a row of an upserted table is the fresh row or an
untouched old row with a different key. -/
theorem mem_upsertPlanet_cases (rows : List PlanetRow) (p : Planet) (sys : String)
    (hnd : (rows.map planetKey).Nodup) (r : PlanetRow)
    (hr : r ∈ upsertPlanet rows p sys) :
    r = planetRow p sys ∨ (r ∈ rows ∧ ¬(r.name = p.name ∧ r.system_name = sys)) := by
  induction rows with
  | nil =>
    rw [upsertPlanet] at hr
    exact Or.inl (List.mem_singleton.mp hr)
  | cons a rest ih =>
    rw [upsertPlanet] at hr
    split_ifs at hr with ha
    · rcases List.mem_cons.mp hr with h | h
      · exact Or.inl h
      · refine Or.inr ⟨List.mem_cons_of_mem _ h, fun hc => ?_⟩
        have h1 : planetKey a ∉ rest.map planetKey := (List.nodup_cons.mp hnd).1
        have h2 : planetKey r = planetKey a := by
          simp [planetKey, hc.1, hc.2, ha.1, ha.2]
        exact h1 (h2 ▸ List.mem_map_of_mem planetKey h)
    · rcases List.mem_cons.mp hr with h | h
      · subst h
        exact Or.inr ⟨List.mem_cons_self _ _, ha⟩
      · rcases ih (List.nodup_cons.mp hnd).2 h with hl | ⟨hm, hn⟩
        · exact Or.inl hl
        · exact Or.inr ⟨List.mem_cons_of_mem _ hm, hn⟩

theorem applyWrites_append_singleton (ps : List Planet) (q : Planet) (sys : String)
    (r : PlanetRow) :
    applyWrites (ps ++ [q]) sys r = applyOne q sys (applyWrites ps sys r) := by
  rw [applyWrites, applyWrites, List.foldl_append, List.foldl_cons, List.foldl_nil]

/-- Any row present after a planet loop is a fixed point of replaying the
loop's writes. -/
theorem applyWrites_eq_self_of_mem_foldl (sys : String) (ps : List Planet) :
    ∀ rows : List PlanetRow, (rows.map planetKey).Nodup →
      ∀ r ∈ ps.foldl (fun rs p => upsertPlanet rs p sys) rows,
        applyWrites ps sys r = r := by
  induction ps using List.reverseRecOn with
  | nil => exact fun rows _ r _ => rfl
  | append_singleton ps q ih =>
    intro rows hnd r hr
    rw [List.foldl_append, List.foldl_cons, List.foldl_nil] at hr
    have hndY := nodup_keys_foldl_upsertPlanet ps sys rows hnd
    rw [applyWrites_append_singleton]
    rcases mem_upsertPlanet_cases _ q sys hndY r hr with h | ⟨hmem, hne⟩
    · have hkey : planetKey (applyWrites ps sys r) = (q.name, sys) := by
        rw [planetKey_applyWrites, h]
        rfl
      rw [applyOne, if_pos ⟨congrArg Prod.fst hkey, congrArg Prod.snd hkey⟩, h]
    · rw [ih rows hnd r hmem, applyOne, if_neg hne]

theorem mem_keys_foldl_upsertPlanet_mono (ps : List Planet) (sys : String) :
    ∀ rows : List PlanetRow, ∀ k ∈ rows.map planetKey,
      k ∈ (ps.foldl (fun rs p => upsertPlanet rs p sys) rows).map planetKey := by
  induction ps with
  | nil => exact fun rows k hk => hk
  | cons p rest ih =>
    intro rows k hk
    rw [List.foldl_cons]
    exact ih _ k (mem_keys_upsertPlanet_mono rows p sys k hk)

theorem mem_keys_foldl_upsertPlanet_self (ps : List Planet) (sys : String) :
    ∀ rows : List PlanetRow, ∀ p ∈ ps,
      (p.name, sys) ∈ (ps.foldl (fun rs q => upsertPlanet rs q sys) rows).map planetKey := by
  induction ps with
  | nil =>
    intro rows p hp
    cases hp
  | cons q rest ih =>
    intro rows p hp
    rw [List.foldl_cons]
    rcases List.mem_cons.mp hp with h | h
    · subst h
      exact mem_keys_foldl_upsertPlanet_mono rest sys _ _
        (mem_keys_upsertPlanet_self rows p sys)
    · exact ih _ p h

/-- Re-running one save's planet loop on its own output is a no-op. -/
theorem foldl_upsertPlanet_idem (ps : List Planet) (sys : String)
    (rows : List PlanetRow) (hnd : (rows.map planetKey).Nodup) :
    ps.foldl (fun rs p => upsertPlanet rs p sys)
        (ps.foldl (fun rs p => upsertPlanet rs p sys) rows) =
      ps.foldl (fun rs p => upsertPlanet rs p sys) rows := by
  have hndY := nodup_keys_foldl_upsertPlanet ps sys rows hnd
  have hmem : ∀ p ∈ ps,
      (p.name, sys) ∈ (ps.foldl (fun rs q => upsertPlanet rs q sys) rows).map planetKey :=
    fun p hp => mem_keys_foldl_upsertPlanet_self ps sys rows p hp
  rw [foldl_upsertPlanet_eq_map ps sys _ hndY hmem]
  exact map_eq_self_of _ _ fun r hr => applyWrites_eq_self_of_mem_foldl sys ps rows hnd r hr

theorem names_nodup_of_keys_nodup (n : String) :
    ∀ l : List PlanetRow, (∀ r ∈ l, r.system_name = n) → (l.map planetKey).Nodup →
      (l.map fun r => r.name).Nodup := by
  intro l
  induction l with
  | nil => exact fun _ _ => List.nodup_nil
  | cons a rest ih =>
    intro hall hnd
    rw [List.map_cons, List.nodup_cons]
    refine ⟨fun hc => ?_, ih (fun r hr => hall r (List.mem_cons_of_mem _ hr))
      (List.nodup_cons.mp hnd).2⟩
    obtain ⟨r', hr', hname⟩ := List.mem_map.mp hc
    have hkey : planetKey r' = planetKey a := by
      have e1 : r'.system_name = n := hall r' (List.mem_cons_of_mem _ hr')
      have e2 : a.system_name = n := hall a (List.mem_cons_self _ _)
      simp [planetKey, hname, e1, e2]
    exact (List.nodup_cons.mp hnd).1 (hkey ▸ List.mem_map_of_mem planetKey hr')

/-- Under unique planet keys, the planets attached to a read-back system
have pairwise-distinct names. -/
theorem planetsFor_names_nodup (st : DBState) (n : String)
    (hnd : (st.planets.map planetKey).Nodup) :
    ((planetsFor st n).map Planet.name).Nodup := by
  have hsub : List.Sublist (st.planets.filter fun r => decide (r.system_name = n))
      st.planets :=
    List.filter_sublist _
  have hk := (hsub.map planetKey).nodup hnd
  have hall : ∀ r ∈ st.planets.filter fun r => decide (r.system_name = n),
      r.system_name = n :=
    fun r hr => of_decide_eq_true (List.mem_filter.mp hr).2
  have heq : (planetsFor st n).map Planet.name =
      (st.planets.filter fun r => decide (r.system_name = n)).map fun r => r.name := by
    rw [planetsFor, List.map_map]
    rfl
  rw [heq]
  exact names_nodup_of_keys_nodup n _ hall hk

/-- Claim C4: `save` is idempotent — saving the same system twice leaves the
stored state identical to saving it once — and the planets read back by
`findByName` carry no duplicate names. -/
theorem claim4_save_idempotent (st : DBState) (s : StarSystem) (h : dbWF st) :
    save s (save s st) = save s st ∧
    ∀ t, find_by_name (save s st) s.name = some t →
      (t.planets.map Planet.name).Nodup := by
  constructor
  · simp only [save]
    congr 1
    · exact upsertSystem_absorb st.star_systems s.name s.spectral_type s.spectral_type
        s.distance_ly s.distance_ly
    · exact foldl_upsertPlanet_idem s.planets s.name st.planets h.2
  · intro t ht
    have hnd : ((save s st).planets.map planetKey).Nodup :=
      nodup_keys_foldl_upsertPlanet s.planets s.name st.planets h.2
    rcases Option.map_eq_some'.mp ht with ⟨r, -, hread⟩
    rw [← hread]
    exact planetsFor_names_nodup (save s st) r.name hnd

/-- Witness for C4 at a concrete system with one planet. -/
theorem claim4_witness :
    save ⟨"A", "G2V", 10, [⟨"p", 1, 1, 1⟩]⟩
        (save ⟨"A", "G2V", 10, [⟨"p", 1, 1, 1⟩]⟩ emptyDB) =
      save ⟨"A", "G2V", 10, [⟨"p", 1, 1, 1⟩]⟩ emptyDB ∧
    (([⟨"p", (1 : ℚ), 1, 1⟩] : List Planet).map Planet.name).Nodup :=
  ⟨(claim4_save_idempotent emptyDB ⟨"A", "G2V", 10, [⟨"p", 1, 1, 1⟩]⟩ (by decide)).1,
   (claim4_save_idempotent emptyDB ⟨"A", "G2V", 10, [⟨"p", 1, 1, 1⟩]⟩ (by decide)).2
     ⟨"A", "G2V", 10, [⟨"p", 1, 1, 1⟩]⟩ (by decide)⟩


/-! ### Batch-save machinery -/

theorem batchStep_none (fail : StarSystem → Option Nat) (st : DBState) (s : StarSystem)
    (h : fail s = none) : batchStep fail st s = save s st := by
  unfold batchStep
  rw [h]

theorem batchStep_some (fail : StarSystem → Option Nat) (st : DBState) (s : StarSystem)
    (j : Nat) (h : fail s = some j) : batchStep fail st s = savePrefix s j st := by
  unfold batchStep
  rw [h]

/-- `save_batch` counts exactly the failing systems as failed and all others
as successes, whatever statement each failure is raised at. -/
theorem save_batch_counts (fail : StarSystem → Option Nat) :
    ∀ (systems : List StarSystem) (st : DBState),
      (save_batch fail systems st).1 =
        ((systems.filter fun s => (fail s).isNone).length,
         (systems.filter fun s => (fail s).isSome).length) := by
  intro systems
  induction systems with
  | nil => exact fun st => rfl
  | cons s rest ih =>
    intro st
    rw [save_batch]
    cases hf : fail s with
    | none => simp [ih (save s st), List.filter_cons, hf]
    | some j => simp [ih (savePrefix s j st), List.filter_cons, hf]

/-- The state after `save_batch` is the fold of the per-system steps — full
saves for successes, committed prefixes for failures — over all systems, in
order. -/
theorem save_batch_state (fail : StarSystem → Option Nat) :
    ∀ (systems : List StarSystem) (st : DBState),
      (save_batch fail systems st).2 = systems.foldl (batchStep fail) st := by
  intro systems
  induction systems with
  | nil => exact fun st => rfl
  | cons s rest ih =>
    intro st
    rw [save_batch, List.foldl_cons]
    cases hf : fail s with
    | none => simp [ih (save s st), batchStep_none fail st s hf]
    | some j => simp [ih (savePrefix s j st), batchStep_some fail st s j hf]

theorem mem_star_systems_save_self (st : DBState) (s : StarSystem) :
    (⟨s.name, s.spectral_type, s.distance_ly⟩ : SystemRow) ∈ (save s st).star_systems :=
  List.mem_of_find?_eq_some
    (find?_upsertSystem_self st.star_systems s.name s.spectral_type s.distance_ly)

/-- A system row survives a committed save prefix of a different name. -/
theorem mem_star_systems_savePrefix_of_ne (s : StarSystem) (j : Nat) (st : DBState)
    (r : SystemRow) (hr : r ∈ st.star_systems) (hne : r.name ≠ s.name) :
    r ∈ (savePrefix s j st).star_systems := by
  cases j with
  | zero => exact hr
  | succ k =>
    exact mem_upsertSystem_of_ne st.star_systems s.name s.spectral_type s.distance_ly
      r hr hne

/-- A planet row survives a committed save prefix of a different system. -/
theorem mem_planets_savePrefix_of_ne (s : StarSystem) (j : Nat) (st : DBState)
    (row : PlanetRow) (hr : row ∈ st.planets) (hne : row.system_name ≠ s.name) :
    row ∈ (savePrefix s j st).planets := by
  cases j with
  | zero => exact hr
  | succ k =>
    exact mem_foldl_upsertPlanet_of_ne (s.planets.take k) st.planets s.name row hr
      fun p hp hc => hne hc.2

/-- A system row survives one batch step of a system with a different
name, whether that step fails or not. -/
theorem mem_star_systems_batchStep (fail : StarSystem → Option Nat) (st : DBState)
    (g : StarSystem) (r : SystemRow) (hr : r ∈ st.star_systems)
    (hne : r.name ≠ g.name) : r ∈ (batchStep fail st g).star_systems := by
  cases hf : fail g with
  | none =>
    rw [batchStep_none fail st g hf]
    exact mem_upsertSystem_of_ne st.star_systems g.name g.spectral_type g.distance_ly
      r hr hne
  | some j =>
    rw [batchStep_some fail st g j hf]
    exact mem_star_systems_savePrefix_of_ne g j st r hr hne

/-- A planet row survives one batch step of a system with a different name. -/
theorem mem_planets_batchStep (fail : StarSystem → Option Nat) (st : DBState)
    (g : StarSystem) (row : PlanetRow) (hr : row ∈ st.planets)
    (hne : row.system_name ≠ g.name) : row ∈ (batchStep fail st g).planets := by
  cases hf : fail g with
  | none =>
    rw [batchStep_none fail st g hf]
    exact mem_foldl_upsertPlanet_of_ne g.planets st.planets g.name row hr
      fun p hp hc => hne hc.2
  | some j =>
    rw [batchStep_some fail st g j hf]
    exact mem_planets_savePrefix_of_ne g j st row hr hne

/-- A system row survives the rest of a batch when every later system has a
different name. -/
theorem mem_star_systems_foldl_batchStep (fail : StarSystem → Option Nat)
    (gs : List StarSystem) :
    ∀ (st : DBState) (r : SystemRow), r ∈ st.star_systems →
      (∀ s' ∈ gs, s'.name ≠ r.name) →
      r ∈ (gs.foldl (batchStep fail) st).star_systems := by
  induction gs with
  | nil => exact fun st r hr _ => hr
  | cons g rest ih =>
    intro st r hr hne
    rw [List.foldl_cons]
    refine ih (batchStep fail st g) r ?_ fun s' hs' => hne s' (List.mem_cons_of_mem _ hs')
    exact mem_star_systems_batchStep fail st g r hr
      (Ne.symm (hne g (List.mem_cons_self _ _)))

/-- A planet row survives the rest of a batch when every later system has a
different name. -/
theorem mem_planets_foldl_batchStep (fail : StarSystem → Option Nat)
    (gs : List StarSystem) :
    ∀ (st : DBState) (row : PlanetRow), row ∈ st.planets →
      (∀ s' ∈ gs, s'.name ≠ row.system_name) →
      row ∈ (gs.foldl (batchStep fail) st).planets := by
  induction gs with
  | nil => exact fun st row hr _ => hr
  | cons g rest ih =>
    intro st row hr hne
    rw [List.foldl_cons]
    refine ih (batchStep fail st g) row ?_ fun s' hs' => hne s' (List.mem_cons_of_mem _ hs')
    exact mem_planets_batchStep fail st g row hr
      (Ne.symm (hne g (List.mem_cons_self _ _)))
/-- Each fully saved system of a batch whose valid names are pairwise
distinct and disjoint from the failing names is readable back from
`find_all` with its data and at least its planets, despite the committed
partial writes of the failures. -/
theorem find_all_foldl_batchStep (fail : StarSystem → Option Nat)
    (gs : List StarSystem) :
    ∀ (st : DBState) (s : StarSystem),
      ((gs.filter fun s => (fail s).isNone).map fun s => s.name).Nodup →
      (∀ b ∈ gs, ∀ v ∈ gs, (fail b).isSome → (fail v).isNone → b.name ≠ v.name) →
      s ∈ gs → fail s = none → s.spectral_type ≠ "" →
      (s.planets.map Planet.name).Nodup →
      ∃ t ∈ find_all (gs.foldl (batchStep fail) st),
        t.name = s.name ∧ t.spectral_type = s.spectral_type ∧
        t.distance_ly = s.distance_ly ∧
        (s.planets : Multiset Planet) ≤ (t.planets : Multiset Planet) := by
  induction gs with
  | nil =>
    intro st s _ _ hs
    cases hs
  | cons g rest ih =>
    intro st s hnd hdisj hs hf h1 h2
    rw [List.foldl_cons]
    rcases List.mem_cons.mp hs with h | h
    · have hfg : fail g = none := by rw [← h]; exact hf
      have hstep : batchStep fail st g = save g st := batchStep_none fail st g hfg
      have hnd' : ((g :: rest.filter fun s => (fail s).isNone).map fun s => s.name).Nodup := by
        rw [show (g :: rest.filter fun s => (fail s).isNone) =
          (g :: rest).filter fun s => (fail s).isNone from by
            rw [List.filter_cons]; simp [hfg]]
        exact hnd
      have hne : ∀ s' ∈ rest, s'.name ≠ s.name := by
        intro s' hs' hc
        cases hfs' : fail s' with
        | none =>
          have hmem : s'.name ∈ (rest.filter fun s => (fail s).isNone).map
              fun s => s.name :=
            List.mem_map_of_mem _ (List.mem_filter.mpr ⟨hs', by rw [hfs']; rfl⟩)
          have hG : g.name ∉ (rest.filter fun s => (fail s).isNone).map
              fun s => s.name := by
            rw [List.map_cons] at hnd'
            exact (List.nodup_cons.mp hnd').1
          rw [hc, h] at hmem
          exact hG hmem
        | some j =>
          refine hdisj s' (List.mem_cons_of_mem _ hs') g (List.mem_cons_self _ _)
            (by rw [hfs']; rfl) (by rw [hfg]; rfl) ?_
          rw [← h]
          exact hc
      have hrow : (⟨s.name, s.spectral_type, s.distance_ly⟩ : SystemRow) ∈
          (batchStep fail st g).star_systems := by
        rw [hstep, h]
        exact mem_star_systems_save_self st g
      have hfinal : (⟨s.name, s.spectral_type, s.distance_ly⟩ : SystemRow) ∈
          (rest.foldl (batchStep fail) (batchStep fail st g)).star_systems :=
        mem_star_systems_foldl_batchStep fail rest (batchStep fail st g) _ hrow
          fun s' hs' => hne s' hs'
      have hplanets : ∀ p ∈ s.planets,
          p ∈ planetsFor (rest.foldl (batchStep fail) (batchStep fail st g)) s.name := by
        intro p hp
        have hrowp : planetRow p s.name ∈ (batchStep fail st g).planets := by
          rw [hstep]
          rw [h] at h2 hp ⊢
          exact mem_foldl_upsertPlanet_self g.planets g.name p st.planets h2 hp
        have hsurv : planetRow p s.name ∈
            (rest.foldl (batchStep fail) (batchStep fail st g)).planets :=
          mem_planets_foldl_batchStep fail rest (batchStep fail st g) _ hrowp
            fun s' hs' => hne s' hs'
        have hmf : planetRow p s.name ∈
            (rest.foldl (batchStep fail) (batchStep fail st g)).planets.filter
              fun r => decide (r.system_name = s.name) :=
          List.mem_filter.mpr ⟨hsurv, by simp [planetRow]⟩
        have hmem := List.mem_map_of_mem planetOfRow hmf
        rwa [planetOfRow_planetRow] at hmem
      refine ⟨readSystemRow (rest.foldl (batchStep fail) (batchStep fail st g))
          ⟨s.name, s.spectral_type, s.distance_ly⟩,
        List.mem_map_of_mem _ hfinal, rfl, ?_, ?_, ?_⟩
      · show orUnknown s.spectral_type = s.spectral_type
        rw [orUnknown, if_neg h1]
      · exact orZero_eq s.distance_ly
      · rw [Multiset.coe_le]
        exact List.subperm_of_subset (List.Nodup.of_map _ h2) hplanets
    · refine ih (batchStep fail st g) s ?_
        (fun b hb v hv => hdisj b (List.mem_cons_of_mem _ hb) v (List.mem_cons_of_mem _ hv))
        h hf h1 h2
      rw [List.filter_cons] at hnd
      cases hfg : fail g with
      | none =>
        rw [hfg] at hnd
        simp only [Option.isNone_none, if_true, List.map_cons] at hnd
        exact (List.nodup_cons.mp hnd).2
      | some j =>
        rw [hfg] at hnd
        simpa using hnd

/-- Claim C5, as stated, is false on the code: `save_batch` has no rollback,
so a system that fails at a planet insert still gets its system-row upsert
committed, which can overwrite a previously saved valid system of the same
name — `findAll` then no longer contains that valid system's data. -/
theorem claim5_cex :
    (save_batch (fun s => if s.spectral_type == "X" then some 1 else none)
        [⟨"A", "G2V", 10, []⟩, ⟨"A", "X", 1, [⟨"p", 1, 1, 1⟩]⟩] emptyDB).1 = (1, 1) ∧
    find_all (save_batch (fun s => if s.spectral_type == "X" then some 1 else none)
        [⟨"A", "G2V", 10, []⟩, ⟨"A", "X", 1, [⟨"p", 1, 1, 1⟩]⟩] emptyDB).2 =
      [⟨"A", "X", 1, []⟩] ∧
    ("X" : String) ≠ "G2V" :=
  ⟨by decide, by decide, by decide⟩

/-- Claim C5 (amended): with exactly K failing systems out of N, `saveBatch`
returns the count pair `(N-K, K)` (systems after a failure are still
attempted and counted, and counts — not an exception — are returned); and
provided the failing systems' names are disjoint from the valid systems'
names (failures have no rollback, so a failing system's committed partial
write could otherwise overwrite a same-named valid system), with valid
systems of pairwise-distinct names, non-empty spectral types and distinct
planet names as in C3, `findAll` afterwards contains all N-K valid
systems. -/
theorem claim5_save_batch_resilient (systems : List StarSystem)
    (fail : StarSystem → Option Nat) :
    (save_batch fail systems emptyDB).1 =
      (systems.length - (systems.filter fun s => (fail s).isSome).length,
       (systems.filter fun s => (fail s).isSome).length) ∧
    (((systems.filter fun s => (fail s).isNone).map fun s => s.name).Nodup →
      (∀ b ∈ systems, ∀ v ∈ systems, (fail b).isSome → (fail v).isNone →
        b.name ≠ v.name) →
      ∀ s ∈ systems, fail s = none → s.spectral_type ≠ "" →
        (s.planets.map Planet.name).Nodup →
        ∃ t ∈ find_all (save_batch fail systems emptyDB).2,
          t.name = s.name ∧ t.spectral_type = s.spectral_type ∧
          t.distance_ly = s.distance_ly ∧
          (s.planets : Multiset Planet) ≤ (t.planets : Multiset Planet)) := by
  constructor
  · rw [save_batch_counts fail systems emptyDB]
    have hsame : (systems.filter fun s => (fail s).isNone) =
        systems.filter fun s => !(fail s).isSome := by
      refine List.filter_congr fun s _ => ?_
      cases fail s <;> rfl
    have hlen := List.length_eq_length_filter_add (l := systems)
      fun s => (fail s).isSome
    rw [hsame]
    rw [show systems.length - (systems.filter fun s => (fail s).isSome).length =
      (systems.filter fun s => !(fail s).isSome).length from by omega]
  · intro hnd hdisj s hs hf h1 h2
    rw [save_batch_state fail systems emptyDB]
    exact find_all_foldl_batchStep fail systems emptyDB s hnd hdisj hs hf h1 h2

/-- Witness for C5: three systems of which the middle one fails at its
system-row insert; counts are `(2, 1)` and the first system is still found
afterwards with its planet. -/
theorem claim5_witness :
    (save_batch (fun s => if s.name == "BAD" then some 1 else none)
        [⟨"A", "G2V", 10, [⟨"p", 1, 1, 1⟩]⟩, ⟨"BAD", "X", 1, []⟩,
         ⟨"B", "K5V", 20, []⟩] emptyDB).1 = (2, 1) ∧
    ∃ t ∈ find_all (save_batch (fun s => if s.name == "BAD" then some 1 else none)
        [⟨"A", "G2V", 10, [⟨"p", 1, 1, 1⟩]⟩, ⟨"BAD", "X", 1, []⟩,
         ⟨"B", "K5V", 20, []⟩] emptyDB).2,
      t.name = "A" ∧ t.spectral_type = "G2V" ∧ t.distance_ly = 10 ∧
      (([⟨"p", (1 : ℚ), 1, 1⟩] : List Planet) : Multiset Planet) ≤
        (t.planets : Multiset Planet) :=
  ⟨((claim5_save_batch_resilient
      [⟨"A", "G2V", 10, [⟨"p", 1, 1, 1⟩]⟩, ⟨"BAD", "X", 1, []⟩, ⟨"B", "K5V", 20, []⟩]
      (fun s => if s.name == "BAD" then some 1 else none)).1).trans (by decide),
   (claim5_save_batch_resilient
      [⟨"A", "G2V", 10, [⟨"p", 1, 1, 1⟩]⟩, ⟨"BAD", "X", 1, []⟩, ⟨"B", "K5V", 20, []⟩]
      (fun s => if s.name == "BAD" then some 1 else none)).2 (by decide) (by decide)
      ⟨"A", "G2V", 10, [⟨"p", 1, 1, 1⟩]⟩ (by simp) (by decide) (by decide) (by decide)⟩

end StarSystems
